import Mathlib

/-!
Shallow embedding of the transaction-processing engine of `src/main.rs`.

Amounts are modelled as rationals (the Rust code uses `f32`; all claims under
study concern the additive bookkeeping, not rounding). Client identifiers
(`u16`) and transaction identifiers (`u32`) are modelled as `Nat`; no claim
involves identifier overflow. The two `HashMap`s of `process_transactions`
are modelled as functions into `Option`, with insertion as pointwise update,
which preserves the key-set structure of the maps.
-/

namespace Txns

/-- The five-way transaction kind of `enum TransactionType`. -/
inductive TransactionType where
  | deposit
  | withdrawal
  | dispute
  | resolve
  | chargeback
deriving DecidableEq

/-- The input record `struct Transaction`: kind, client id, transaction id,
and an optional amount (present on deposits and withdrawals). -/
structure Transaction where
  transaction_type : TransactionType
  client : Nat
  tx : Nat
  amount : Option ℚ
deriving DecidableEq

/-- Per-client state `struct Account`: the list of currently disputed
transaction ids (`Vec<u32>` in the source, so duplicates are representable),
the frozen flag, and the held and available balances. -/
structure Account where
  disputed_transactions : List Nat
  frozen : Bool
  held : ℚ
  available : ℚ
deriving DecidableEq

/-- `Account::deposit`: adds to available unless the account is frozen. -/
def Account.deposit (self : Account) (amount : ℚ) : Account :=
  if self.frozen = false then { self with available := self.available + amount }
  else self

/-- `Account::withdraw`: returns unchanged when the amount exceeds available
AND the account is not frozen; otherwise debits available. (This mirrors the
source's guard `amount > self.available && !self.frozen` exactly: a frozen
account falls through to the debit.) -/
def Account.withdraw (self : Account) (amount : ℚ) : Account :=
  if amount > self.available ∧ self.frozen = false then self
  else { self with available := self.available - amount }

/-- `Account::dispute`: pushes the transaction id onto the disputed list and
adds the amount to held, with no membership check. -/
def Account.dispute (self : Account) (transaction_id : Nat) (amount : ℚ) : Account :=
  { self with
      disputed_transactions := self.disputed_transactions ++ [transaction_id],
      held := self.held + amount }

/-- `Account::resolve`: if the id is currently disputed, removes every
occurrence of it (`Vec::retain`), debits held and credits available. -/
def Account.resolve (self : Account) (transaction_id : Nat) (amount : ℚ) : Account :=
  if transaction_id ∈ self.disputed_transactions then
    { self with
        disputed_transactions :=
          self.disputed_transactions.filter (fun x => x != transaction_id),
        held := self.held - amount,
        available := self.available + amount }
  else self

/-- `Account::chargeback`: if the id is currently disputed, removes every
occurrence of it, debits held and sets the frozen flag. -/
def Account.chargeback (self : Account) (transaction_id : Nat) (amount : ℚ) : Account :=
  if transaction_id ∈ self.disputed_transactions then
    { self with
        disputed_transactions :=
          self.disputed_transactions.filter (fun x => x != transaction_id),
        held := self.held - amount,
        frozen := true }
  else self

/-- `Account::total_funds`: available plus held. -/
def Account.total_funds (self : Account) : ℚ := self.available + self.held

/-- The account `or_insert`ed for a client on first reference. -/
def initialAccount : Account :=
  { disputed_transactions := [], frozen := false, held := 0, available := 0 }

/-- The two maps owned by `process_transactions`: client id to account, and
transaction id to the recorded deposit/withdrawal. -/
structure EngineState where
  accounts : Nat → Option Account
  processed_transactions : Nat → Option Transaction

/-- Both maps start empty. -/
def initialState : EngineState :=
  { accounts := fun _ => none, processed_transactions := fun _ => none }

/-- The amount read off a record with `Option::unwrap` in the source. The
source panics on `None`; every theorem below supplies the amount explicitly,
so the default value of this totalisation is never relied upon. -/
def unwrapAmount (amount : Option ℚ) : ℚ := amount.getD 0

/-- Insertion of an account under a client id (`HashMap::insert`, and the
writing half of `entry().or_insert()`). -/
def putAccount (s : EngineState) (client : Nat) (a : Account) : Nat → Option Account :=
  fun k => if k = client then some a else s.accounts k

/-- The match guard shared by the Dispute/Resolve/Chargeback arms: the
referenced transaction, provided it exists in the index and is a Deposit or a
Withdrawal; `none` otherwise. -/
def referenced (s : EngineState) (txid : Nat) : Option Transaction :=
  match s.processed_transactions txid with
  | some dt =>
      if dt.transaction_type = TransactionType.deposit ∨
         dt.transaction_type = TransactionType.withdrawal
      then some dt else none
  | none => none

/-- One iteration of the `for transaction in transactions` loop of
`process_transactions`: the client's account is materialised
(`entry().or_insert`) and the record dispatched on its kind. Deposits and
withdrawals are recorded in the index unconditionally; the dispute-lifecycle
arms fall through to `_ => {}` (account written back unchanged) when the
reference does not check out. -/
def step (s : EngineState) (t : Transaction) : EngineState :=
  let user_account := (s.accounts t.client).getD initialAccount
  match t.transaction_type with
  | TransactionType.deposit =>
      { accounts := putAccount s t.client (user_account.deposit (unwrapAmount t.amount)),
        processed_transactions := fun k => if k = t.tx then some t else s.processed_transactions k }
  | TransactionType.withdrawal =>
      { accounts := putAccount s t.client (user_account.withdraw (unwrapAmount t.amount)),
        processed_transactions := fun k => if k = t.tx then some t else s.processed_transactions k }
  | TransactionType.dispute =>
      { accounts := putAccount s t.client
          (match referenced s t.tx with
           | some dt => user_account.dispute dt.tx (unwrapAmount dt.amount)
           | none => user_account),
        processed_transactions := s.processed_transactions }
  | TransactionType.resolve =>
      { accounts := putAccount s t.client
          (match referenced s t.tx with
           | some dt => user_account.resolve dt.tx (unwrapAmount dt.amount)
           | none => user_account),
        processed_transactions := s.processed_transactions }
  | TransactionType.chargeback =>
      { accounts := putAccount s t.client
          (match referenced s t.tx with
           | some dt => user_account.chargeback dt.tx (unwrapAmount dt.amount)
           | none => user_account),
        processed_transactions := s.processed_transactions }

/-- The loop of `process_transactions`, kept as the full engine state. -/
def runEngine (transactions : List Transaction) : EngineState :=
  transactions.foldl step initialState

/-- `process_transactions`: the final client-to-account mapping. -/
def process_transactions (transactions : List Transaction) : Nat → Option Account :=
  (runEngine transactions).accounts

/-! ## Concrete inputs referred to by the theorems below. -/

/-- Deposit 10 as tx 0, then dispute tx 0 twice. -/
def doubleDisputeInput : List Transaction :=
  [⟨TransactionType.deposit, 0, 0, some 10⟩,
   ⟨TransactionType.dispute, 0, 0, none⟩,
   ⟨TransactionType.dispute, 0, 0, none⟩]

/-- Deposit 20 as tx 0. -/
def depositOnlyInput : List Transaction :=
  [⟨TransactionType.deposit, 0, 0, some 20⟩]

/-- Deposit 20 as tx 0, dispute it, then resolve it. -/
def disputeResolveInput : List Transaction :=
  depositOnlyInput ++
    [⟨TransactionType.dispute, 0, 0, none⟩, ⟨TransactionType.resolve, 0, 0, none⟩]

/-- Deposit 0 as tx 0 and dispute it. -/
def zeroDisputedInput : List Transaction :=
  [⟨TransactionType.deposit, 0, 0, some 0⟩, ⟨TransactionType.dispute, 0, 0, none⟩]

/-- Deposit 0 as tx 0, dispute it, then charge it back. -/
def zeroChargebackInput : List Transaction :=
  zeroDisputedInput ++ [⟨TransactionType.chargeback, 0, 0, none⟩]

/-- Withdraw 10 as tx 0 from an empty account, then dispute tx 0. -/
def failedWithdrawalDisputeInput : List Transaction :=
  [⟨TransactionType.withdrawal, 0, 0, some 10⟩, ⟨TransactionType.dispute, 0, 0, none⟩]

/-- Deposit 5 as tx 0 and dispute it. -/
def fiveDisputedInput : List Transaction :=
  [⟨TransactionType.deposit, 0, 0, some 5⟩, ⟨TransactionType.dispute, 0, 0, none⟩]

/-! ## Theorems settling the claims. -/

/-- C1: contrary to the claim (and to the source's own comment that a frozen
account blocks all withdrawal operations), `Account::withdraw` applied to a
frozen account is not a no-op: with available 0 and frozen set, withdrawing 5
debits available to -5, because the guard `amount > available && !frozen` is
false whenever the account is frozen. -/
theorem withdraw_on_frozen_account_debits_available :
    (Account.withdraw
        { disputed_transactions := [], frozen := true, held := 0, available := 0 } 5).available
      = -5 ∧
    Account.withdraw
        { disputed_transactions := [], frozen := true, held := 0, available := 0 } 5
      ≠ { disputed_transactions := [], frozen := true, held := 0, available := 0 } := by
  constructor
  · simp [Account.withdraw]
  · simp [Account.withdraw]

/-- C2 counterexample: after depositing 10 as tx 0 and disputing tx 0 twice,
tx 0 is a member of the disputed list twice and held is 20, so the second
Dispute of an already-disputed transaction is not a no-op and the at-most-once
invariant fails. -/
theorem double_dispute_not_noop :
    process_transactions doubleDisputeInput 0 =
      some { disputed_transactions := [0, 0], frozen := false, held := 20, available := 10 } ∧
    (process_transactions doubleDisputeInput 0).map
        (fun a => a.disputed_transactions.count 0) = some 2 := by
  have h : process_transactions doubleDisputeInput 0 =
      some { disputed_transactions := [0, 0], frozen := false, held := 20, available := 10 } := by
    simp [doubleDisputeInput, process_transactions, runEngine, step, putAccount, referenced,
      unwrapAmount, initialState, initialAccount, Account.deposit, Account.dispute]
    norm_num
  refine ⟨h, ?_⟩
  rw [h]
  decide

/-- C2 amended: `Account::dispute` performs no membership check, so disputing
a transaction id that is already disputed appends a second copy of the id to
the disputed list (the id then occurs more than once) and adds the amount to
held again. -/
theorem dispute_when_already_disputed_duplicates (a : Account) (t : Nat) (amt : ℚ)
    (h : t ∈ a.disputed_transactions) :
    (a.dispute t amt).disputed_transactions = a.disputed_transactions ++ [t] ∧
    (a.dispute t amt).held = a.held + amt ∧
    1 < (a.dispute t amt).disputed_transactions.count t := by
  refine ⟨rfl, rfl, ?_⟩
  have hpos : 0 < a.disputed_transactions.count t := List.count_pos_iff.mpr h
  have hc : (a.dispute t amt).disputed_transactions.count t
      = a.disputed_transactions.count t + 1 := by
    simp [Account.dispute]
  omega

/-- Witness for the amended C2 at a concrete account. -/
theorem dispute_when_already_disputed_duplicates_witness :
    (Account.dispute
        { disputed_transactions := [0], frozen := false, held := 10, available := 10 }
        0 10).disputed_transactions = [0] ++ [0] ∧
    (Account.dispute
        { disputed_transactions := [0], frozen := false, held := 10, available := 10 }
        0 10).held = 10 + 10 ∧
    1 < (Account.dispute
        { disputed_transactions := [0], frozen := false, held := 10, available := 10 }
        0 10).disputed_transactions.count 0 :=
  dispute_when_already_disputed_duplicates
    { disputed_transactions := [0], frozen := false, held := 10, available := 10 } 0 10
    (by simp)

/-- C3 counterexample: deposit 20 as tx 0, then dispute and resolve tx 0. The
round trip leaves available at 40, not at its pre-dispute value 20, because
`Account::dispute` adds the amount to held without debiting available while
`Account::resolve` credits available. -/
theorem dispute_resolve_roundtrip_inflates_available :
    (process_transactions depositOnlyInput 0).map Account.available = some 20 ∧
    (process_transactions disputeResolveInput 0).map Account.available = some 40 ∧
    (process_transactions disputeResolveInput 0).map Account.available ≠
      (process_transactions depositOnlyInput 0).map Account.available := by
  have h1 : (process_transactions depositOnlyInput 0).map Account.available = some 20 := by
    simp [depositOnlyInput, process_transactions, runEngine, step, putAccount, referenced,
      unwrapAmount, initialState, initialAccount, Account.deposit]
  have h2 : (process_transactions disputeResolveInput 0).map Account.available = some 40 := by
    simp [disputeResolveInput, depositOnlyInput, process_transactions, runEngine, step,
      putAccount, referenced, unwrapAmount, initialState, initialAccount, Account.deposit,
      Account.dispute, Account.resolve]
    norm_num
  refine ⟨h1, h2, ?_⟩
  rw [h1, h2]
  norm_num

/-- C3 amended: disputing a transaction id and then resolving it restores held
to its pre-dispute value and leaves the id out of the disputed list, but
increases available by the referenced amount over its pre-dispute value
(dispute holds funds without debiting available; resolve credits available). -/
theorem dispute_resolve_roundtrip (a : Account) (t : Nat) (amt : ℚ) :
    ((a.dispute t amt).resolve t amt).held = a.held ∧
    ((a.dispute t amt).resolve t amt).available = a.available + amt ∧
    t ∉ ((a.dispute t amt).resolve t amt).disputed_transactions := by
  have hmem : t ∈ (a.dispute t amt).disputed_transactions := by
    simp [Account.dispute]
  refine ⟨?_, ?_, ?_⟩ <;>
    simp [Account.resolve, hmem, Account.dispute, List.mem_filter]

/-- C4: a Deposit on a client whose account is not frozen adds the amount to
available and records the full transaction in the processed-transaction
index; on a frozen account the account state is written back unchanged. -/
theorem deposit_step_spec (s : EngineState) (c txid : Nat) (amt : ℚ) :
    (((s.accounts c).getD initialAccount).frozen = false →
      (step s ⟨TransactionType.deposit, c, txid, some amt⟩).accounts c =
        some { (s.accounts c).getD initialAccount with
                 available := ((s.accounts c).getD initialAccount).available + amt } ∧
      (step s ⟨TransactionType.deposit, c, txid, some amt⟩).processed_transactions txid =
        some ⟨TransactionType.deposit, c, txid, some amt⟩) ∧
    (((s.accounts c).getD initialAccount).frozen = true →
      (step s ⟨TransactionType.deposit, c, txid, some amt⟩).accounts c =
        some ((s.accounts c).getD initialAccount)) := by
  constructor
  · intro hf
    constructor
    · simp [step, putAccount, Account.deposit, unwrapAmount, hf]
    · simp [step]
  · intro hf
    simp [step, putAccount, Account.deposit, unwrapAmount, hf]

/-- Witness for C4: a deposit of 5 on the empty initial state credits client
0's account and records the transaction. -/
theorem deposit_step_spec_witness :
    (step initialState ⟨TransactionType.deposit, 0, 0, some 5⟩).accounts 0 =
      some { initialAccount with available := initialAccount.available + 5 } ∧
    (step initialState ⟨TransactionType.deposit, 0, 0, some 5⟩).processed_transactions 0 =
      some ⟨TransactionType.deposit, 0, 0, some 5⟩ :=
  (deposit_step_spec initialState 0 0 5).1 rfl

/-- C5 counterexample: a deposit of amount 0 recorded as tx 0 and disputed
satisfies the claim's precondition, yet the Chargeback of tx 0 leaves total =
available + held at 0, so total does not strictly decrease (the account is
still frozen and the dispute removed). -/
theorem chargeback_zero_amount_total_not_decreased :
    (process_transactions zeroDisputedInput 0).map Account.disputed_transactions = some [0] ∧
    (runEngine zeroDisputedInput).processed_transactions 0 =
      some ⟨TransactionType.deposit, 0, 0, some 0⟩ ∧
    (process_transactions zeroDisputedInput 0).map Account.total_funds = some 0 ∧
    (process_transactions zeroChargebackInput 0).map Account.total_funds = some 0 ∧
    (process_transactions zeroChargebackInput 0).map Account.frozen = some true := by
  refine ⟨?_, ?_, ?_, ?_, ?_⟩ <;>
    simp [zeroChargebackInput, zeroDisputedInput, process_transactions, runEngine, step,
      putAccount, referenced, unwrapAmount, initialState, initialAccount, Account.deposit,
      Account.dispute, Account.chargeback, Account.total_funds]

/-- C5 amended: a Chargeback of a tx that is currently disputed and recorded
in the index as a Deposit or Withdrawal removes the tx from the disputed
list, debits held by the referenced amount, freezes the account, and
decreases total = available + held by exactly that amount; total strictly
decreases when the amount is positive (the unconditional strict decrease the
claim states fails for a zero amount). -/
theorem chargeback_step_spec (s : EngineState) (c t : Nat) (dt : Transaction) (amt : ℚ)
    (a : Account)
    (ha : (s.accounts c).getD initialAccount = a)
    (hdt : s.processed_transactions t = some dt)
    (hk : dt.transaction_type = TransactionType.deposit ∨
          dt.transaction_type = TransactionType.withdrawal)
    (htx : dt.tx = t)
    (hamt : dt.amount = some amt)
    (hmem : t ∈ a.disputed_transactions) :
    ∃ b, (step s ⟨TransactionType.chargeback, c, t, none⟩).accounts c = some b ∧
      t ∉ b.disputed_transactions ∧
      b.held = a.held - amt ∧
      b.frozen = true ∧
      b.total_funds = a.total_funds - amt ∧
      (0 < amt → b.total_funds < a.total_funds) := by
  have hacc : (step s ⟨TransactionType.chargeback, c, t, none⟩).accounts c =
      some { a with
               disputed_transactions := a.disputed_transactions.filter (fun x => x != t),
               held := a.held - amt, frozen := true } := by
    rcases hk with hk | hk <;>
      simp [step, putAccount, referenced, hdt, hk, htx, hamt, unwrapAmount, ha,
        Account.chargeback, hmem]
  refine ⟨_, hacc, ?_, rfl, rfl, ?_, ?_⟩
  · simp [List.mem_filter]
  · simp [Account.total_funds]
    ring
  · intro hpos
    have : Account.total_funds
        { a with
            disputed_transactions := a.disputed_transactions.filter (fun x => x != t),
            held := a.held - amt, frozen := true } = a.total_funds - amt := by
      simp [Account.total_funds]
      ring
    rw [this]
    exact sub_lt_self _ hpos

/-- Witness for the amended C5: charging back the disputed deposit of 5
freezes client 0's account and lowers total from 10 to 5. -/
theorem chargeback_step_spec_witness :
    ∃ b, (step (runEngine fiveDisputedInput)
        ⟨TransactionType.chargeback, 0, 0, none⟩).accounts 0 = some b ∧
      0 ∉ b.disputed_transactions ∧
      b.held = 5 - 5 ∧
      b.frozen = true ∧
      b.total_funds = Account.total_funds
        { disputed_transactions := [0], frozen := false, held := 5, available := 5 } - 5 ∧
      (0 < (5 : ℚ) → b.total_funds < Account.total_funds
        { disputed_transactions := [0], frozen := false, held := 5, available := 5 }) :=
  chargeback_step_spec (runEngine fiveDisputedInput) 0 0
    ⟨TransactionType.deposit, 0, 0, some 5⟩ 5
    { disputed_transactions := [0], frozen := false, held := 5, available := 5 }
    (by simp [fiveDisputedInput, runEngine, step, putAccount, referenced, unwrapAmount,
          initialState, initialAccount, Account.deposit, Account.dispute])
    (by simp [fiveDisputedInput, runEngine, step, putAccount, referenced, unwrapAmount,
          initialState, initialAccount, Account.deposit, Account.dispute])
    (Or.inl rfl) rfl rfl (by simp)

/-- C6: invalid dispute-lifecycle references are silent no-ops of the total
step function: a Dispute, Resolve or Chargeback whose referenced tx is
missing from the index or recorded with a non-disputable kind, and a Resolve
or Chargeback whose referenced tx is not currently in the account's disputed
list, all write the client's account back with every field unchanged. -/
theorem invalid_reference_noop (s : EngineState) (c t : Nat) (a : Account)
    (ha : (s.accounts c).getD initialAccount = a) :
    (s.processed_transactions t = none →
      (step s ⟨TransactionType.dispute, c, t, none⟩).accounts c = some a ∧
      (step s ⟨TransactionType.resolve, c, t, none⟩).accounts c = some a ∧
      (step s ⟨TransactionType.chargeback, c, t, none⟩).accounts c = some a) ∧
    (∀ dt, s.processed_transactions t = some dt →
      dt.transaction_type ≠ TransactionType.deposit →
      dt.transaction_type ≠ TransactionType.withdrawal →
      (step s ⟨TransactionType.dispute, c, t, none⟩).accounts c = some a ∧
      (step s ⟨TransactionType.resolve, c, t, none⟩).accounts c = some a ∧
      (step s ⟨TransactionType.chargeback, c, t, none⟩).accounts c = some a) ∧
    (∀ dt, s.processed_transactions t = some dt →
      dt.tx ∉ a.disputed_transactions →
      (step s ⟨TransactionType.resolve, c, t, none⟩).accounts c = some a ∧
      (step s ⟨TransactionType.chargeback, c, t, none⟩).accounts c = some a) := by
  refine ⟨?_, ?_, ?_⟩
  · intro hnone
    refine ⟨?_, ?_, ?_⟩ <;> simp [step, putAccount, referenced, hnone, ha]
  · intro dt hdt h1 h2
    refine ⟨?_, ?_, ?_⟩ <;> simp [step, putAccount, referenced, hdt, h1, h2, ha]
  · intro dt hdt hnm
    by_cases hk : dt.transaction_type = TransactionType.deposit ∨
        dt.transaction_type = TransactionType.withdrawal
    · constructor <;>
        simp [step, putAccount, referenced, hdt, hk, ha, Account.resolve,
          Account.chargeback, hnm]
    · constructor <;> simp [step, putAccount, referenced, hdt, hk, ha]

/-- Witness for C6: on the empty initial state a Dispute, Resolve and
Chargeback of the never-recorded tx 0 leave client 0's account at its
initial value. -/
theorem invalid_reference_noop_witness :
    (step initialState ⟨TransactionType.dispute, 0, 0, none⟩).accounts 0 =
      some initialAccount ∧
    (step initialState ⟨TransactionType.resolve, 0, 0, none⟩).accounts 0 =
      some initialAccount ∧
    (step initialState ⟨TransactionType.chargeback, 0, 0, none⟩).accounts 0 =
      some initialAccount :=
  (invalid_reference_noop initialState 0 0 initialAccount rfl).1 rfl

/-! ## Helper lemmas about the frozen flag, used for the temporal claim. -/

/-- A deposit never changes the frozen flag. -/
theorem deposit_frozen_eq (a : Account) (amt : ℚ) : (a.deposit amt).frozen = a.frozen := by
  unfold Account.deposit
  split <;> rfl

/-- A withdrawal never changes the frozen flag. -/
theorem withdraw_frozen_eq (a : Account) (amt : ℚ) : (a.withdraw amt).frozen = a.frozen := by
  unfold Account.withdraw
  split <;> rfl

/-- A dispute never changes the frozen flag. -/
theorem dispute_frozen_eq (a : Account) (t : Nat) (amt : ℚ) :
    (a.dispute t amt).frozen = a.frozen := rfl

/-- A resolve never changes the frozen flag. -/
theorem resolve_frozen_eq (a : Account) (t : Nat) (amt : ℚ) :
    (a.resolve t amt).frozen = a.frozen := by
  unfold Account.resolve
  split <;> rfl

/-- A chargeback keeps an already-set frozen flag set. -/
theorem chargeback_frozen_mono (a : Account) (t : Nat) (amt : ℚ)
    (hf : a.frozen = true) : (a.chargeback t amt).frozen = true := by
  unfold Account.chargeback
  split <;> simp [hf]

/-- A chargeback sets the frozen flag only when the id is currently disputed. -/
theorem chargeback_frozen_source (a : Account) (t : Nat) (amt : ℚ)
    (hf : a.frozen = false) (hb : (a.chargeback t amt).frozen = true) :
    t ∈ a.disputed_transactions := by
  unfold Account.chargeback at hb
  by_cases hmem : t ∈ a.disputed_transactions
  · exact hmem
  · rw [if_neg hmem] at hb
    rw [hf] at hb
    cases hb

/-- Inversion of the match guard: a transaction the guard passes is in the
index and is a Deposit or Withdrawal. -/
theorem referenced_eq_some (s : EngineState) (x : Nat) (dt : Transaction)
    (h : referenced s x = some dt) :
    s.processed_transactions x = some dt ∧
    (dt.transaction_type = TransactionType.deposit ∨
     dt.transaction_type = TransactionType.withdrawal) := by
  unfold referenced at h
  split at h
  · rename_i dt2 hp2
    split at h
    · rename_i hk
      obtain rfl := Option.some.inj h
      exact ⟨hp2, hk⟩
    · cases h
  · cases h

/-- One step keeps a frozen account present and frozen. -/
theorem step_frozen_mono (s : EngineState) (t : Transaction) (c : Nat) (a : Account)
    (hc : s.accounts c = some a) (hf : a.frozen = true) :
    ∃ b, (step s t).accounts c = some b ∧ b.frozen = true := by
  by_cases hcl : c = t.client
  · have huser : (s.accounts t.client).getD initialAccount = a := by
      rw [← hcl, hc]
      rfl
    cases htt : t.transaction_type
    · refine ⟨a.deposit (unwrapAmount t.amount), ?_, ?_⟩
      · simp [step, htt, putAccount, hcl, huser]
      · rw [deposit_frozen_eq]
        exact hf
    · refine ⟨a.withdraw (unwrapAmount t.amount), ?_, ?_⟩
      · simp [step, htt, putAccount, hcl, huser]
      · rw [withdraw_frozen_eq]
        exact hf
    · cases href : referenced s t.tx with
      | none => exact ⟨a, by simp [step, htt, putAccount, hcl, huser, href], hf⟩
      | some dt =>
          refine ⟨a.dispute dt.tx (unwrapAmount dt.amount), ?_, ?_⟩
          · simp [step, htt, putAccount, hcl, huser, href]
          · rw [dispute_frozen_eq]
            exact hf
    · cases href : referenced s t.tx with
      | none => exact ⟨a, by simp [step, htt, putAccount, hcl, huser, href], hf⟩
      | some dt =>
          refine ⟨a.resolve dt.tx (unwrapAmount dt.amount), ?_, ?_⟩
          · simp [step, htt, putAccount, hcl, huser, href]
          · rw [resolve_frozen_eq]
            exact hf
    · cases href : referenced s t.tx with
      | none => exact ⟨a, by simp [step, htt, putAccount, hcl, huser, href], hf⟩
      | some dt =>
          refine ⟨a.chargeback dt.tx (unwrapAmount dt.amount), ?_, ?_⟩
          · simp [step, htt, putAccount, hcl, huser, href]
          · exact chargeback_frozen_mono a dt.tx (unwrapAmount dt.amount) hf
  · refine ⟨a, ?_, hf⟩
    cases htt : t.transaction_type <;> simp [step, htt, putAccount, hcl, hc]

/-- Folding any further transaction list keeps a frozen account frozen. -/
theorem foldl_frozen_mono (rest : List Transaction) :
    ∀ s c a, s.accounts c = some a → a.frozen = true →
      ∃ b, (rest.foldl step s).accounts c = some b ∧ b.frozen = true := by
  induction rest with
  | nil => exact fun s c a h hf => ⟨a, h, hf⟩
  | cons t ts ih =>
      intro s c a h hf
      obtain ⟨b, hb, hbf⟩ := step_frozen_mono s t c a h hf
      simpa [List.foldl_cons] using ih (step s t) c b hb hbf

/-- C7: the frozen flag is terminal: once an account is frozen it stays
present and frozen through every further transaction; and a step can turn an
unfrozen account frozen only if it is a Chargeback addressed to that client
whose referenced tx is in the index as a Deposit or Withdrawal and is
currently a member of the account's disputed list. -/
theorem frozen_terminal (s : EngineState) (c : Nat) :
    (∀ a, s.accounts c = some a → a.frozen = true →
      ∀ rest : List Transaction,
        ∃ b, (rest.foldl step s).accounts c = some b ∧ b.frozen = true) ∧
    (∀ t b, ((s.accounts c).getD initialAccount).frozen = false →
      (step s t).accounts c = some b → b.frozen = true →
      t.transaction_type = TransactionType.chargeback ∧ t.client = c ∧
      ∃ dt, s.processed_transactions t.tx = some dt ∧
        (dt.transaction_type = TransactionType.deposit ∨
         dt.transaction_type = TransactionType.withdrawal) ∧
        dt.tx ∈ ((s.accounts c).getD initialAccount).disputed_transactions) := by
  constructor
  · exact fun a ha hf rest => foldl_frozen_mono rest s c a ha hf
  · intro t b hf hb hbf
    by_cases hcl : c = t.client
    · cases htt : t.transaction_type
      · rw [show (step s t).accounts c = some (((s.accounts c).getD initialAccount).deposit
            (unwrapAmount t.amount)) from by simp [step, htt, putAccount, hcl]] at hb
        obtain rfl := Option.some.inj hb
        rw [deposit_frozen_eq, hf] at hbf
        cases hbf
      · rw [show (step s t).accounts c = some (((s.accounts c).getD initialAccount).withdraw
            (unwrapAmount t.amount)) from by simp [step, htt, putAccount, hcl]] at hb
        obtain rfl := Option.some.inj hb
        rw [withdraw_frozen_eq, hf] at hbf
        cases hbf
      · cases href : referenced s t.tx with
        | none =>
            rw [show (step s t).accounts c = some ((s.accounts c).getD initialAccount)
              from by simp [step, htt, putAccount, hcl, href]] at hb
            obtain rfl := Option.some.inj hb
            rw [hf] at hbf
            cases hbf
        | some dt =>
            rw [show (step s t).accounts c = some (((s.accounts c).getD
                initialAccount).dispute dt.tx (unwrapAmount dt.amount))
              from by simp [step, htt, putAccount, hcl, href]] at hb
            obtain rfl := Option.some.inj hb
            rw [dispute_frozen_eq, hf] at hbf
            cases hbf
      · cases href : referenced s t.tx with
        | none =>
            rw [show (step s t).accounts c = some ((s.accounts c).getD initialAccount)
              from by simp [step, htt, putAccount, hcl, href]] at hb
            obtain rfl := Option.some.inj hb
            rw [hf] at hbf
            cases hbf
        | some dt =>
            rw [show (step s t).accounts c = some (((s.accounts c).getD
                initialAccount).resolve dt.tx (unwrapAmount dt.amount))
              from by simp [step, htt, putAccount, hcl, href]] at hb
            obtain rfl := Option.some.inj hb
            rw [resolve_frozen_eq, hf] at hbf
            cases hbf
      · cases href : referenced s t.tx with
        | none =>
            rw [show (step s t).accounts c = some ((s.accounts c).getD initialAccount)
              from by simp [step, htt, putAccount, hcl, href]] at hb
            obtain rfl := Option.some.inj hb
            rw [hf] at hbf
            cases hbf
        | some dt =>
            rw [show (step s t).accounts c = some (((s.accounts c).getD
                initialAccount).chargeback dt.tx (unwrapAmount dt.amount))
              from by simp [step, htt, putAccount, hcl, href]] at hb
            obtain rfl := Option.some.inj hb
            obtain ⟨hp, hk⟩ := referenced_eq_some s t.tx dt href
            exact ⟨rfl, hcl.symm, dt, hp, hk,
              chargeback_frozen_source _ dt.tx (unwrapAmount dt.amount) hf hbf⟩
    · exfalso
      have hacc : (step s t).accounts c = s.accounts c := by
        cases htt : t.transaction_type <;> simp [step, htt, putAccount, hcl]
      rw [hacc] at hb
      rw [hb] at hf
      simp [Option.getD] at hf
      rw [hf] at hbf
      cases hbf

/-- Witness for C7: the account frozen by the zero-amount chargeback run
stays frozen through a further deposit. -/
theorem frozen_terminal_witness :
    ∃ b, ([(⟨TransactionType.deposit, 0, 1, some 7⟩ : Transaction)].foldl step
        (runEngine zeroChargebackInput)).accounts 0 = some b ∧ b.frozen = true :=
  (frozen_terminal (runEngine zeroChargebackInput) 0).1
    { disputed_transactions := [], frozen := true, held := 0, available := 0 }
    (by simp [zeroChargebackInput, zeroDisputedInput, runEngine, step, putAccount,
          referenced, unwrapAmount, initialState, initialAccount, Account.deposit,
          Account.dispute, Account.chargeback])
    rfl [⟨TransactionType.deposit, 0, 1, some 7⟩]

/-- C8: the engine is a pure deterministic function of its input: equal input
sequences yield the same client-to-account mapping, with the same key set and
the same account value at every client. -/
theorem process_transactions_deterministic (ts1 ts2 : List Transaction)
    (h : ts1 = ts2) :
    (∀ c, process_transactions ts1 c = process_transactions ts2 c) ∧
    (∀ c, (process_transactions ts1 c).isSome = (process_transactions ts2 c).isSome) := by
  subst h
  exact ⟨fun _ => rfl, fun _ => rfl⟩

/-- Witness for C8 at a concrete input sequence. -/
theorem process_transactions_deterministic_witness :
    (∀ c, process_transactions depositOnlyInput c = process_transactions depositOnlyInput c) ∧
    (∀ c, (process_transactions depositOnlyInput c).isSome =
      (process_transactions depositOnlyInput c).isSome) :=
  process_transactions_deterministic depositOnlyInput depositOnlyInput rfl

/-- C9: a Withdrawal of 10 against an empty account has no balance effect, yet
it is recorded in the processed-transaction index, and a later Dispute of it
adds the full 10 to held. -/
theorem failed_withdrawal_still_disputable :
    process_transactions [⟨TransactionType.withdrawal, 0, 0, some 10⟩] 0 =
      some initialAccount ∧
    (runEngine [⟨TransactionType.withdrawal, 0, 0, some 10⟩]).processed_transactions 0 =
      some ⟨TransactionType.withdrawal, 0, 0, some 10⟩ ∧
    process_transactions failedWithdrawalDisputeInput 0 =
      some { disputed_transactions := [0], frozen := false, held := 10, available := 0 } := by
  refine ⟨?_, ?_, ?_⟩ <;>
    norm_num [failedWithdrawalDisputeInput, process_transactions, runEngine, step, putAccount,
      referenced, unwrapAmount, initialState, initialAccount, Account.withdraw,
      Account.dispute]

/-- C10: every dispute-lifecycle record — Dispute, Resolve and Chargeback —
is applied to the account of the client named on that record, via the
corresponding account operation with the amount of the transaction its tx
field references; the referenced record's own client field (part of the
arbitrary `dt` here) is never consulted, so the referenced transaction may
name a different client; all other clients' entries are untouched. -/
theorem lifecycle_uses_record_client_and_referenced_amount
    (s : EngineState) (c t : Nat) (dt : Transaction) (amt : ℚ)
    (hdt : s.processed_transactions t = some dt)
    (hk : dt.transaction_type = TransactionType.deposit ∨
          dt.transaction_type = TransactionType.withdrawal)
    (hamt : dt.amount = some amt) :
    ((step s ⟨TransactionType.dispute, c, t, none⟩).accounts c =
        some (((s.accounts c).getD initialAccount).dispute dt.tx amt) ∧
      ∀ k, k ≠ c →
        (step s ⟨TransactionType.dispute, c, t, none⟩).accounts k = s.accounts k) ∧
    ((step s ⟨TransactionType.resolve, c, t, none⟩).accounts c =
        some (((s.accounts c).getD initialAccount).resolve dt.tx amt) ∧
      ∀ k, k ≠ c →
        (step s ⟨TransactionType.resolve, c, t, none⟩).accounts k = s.accounts k) ∧
    ((step s ⟨TransactionType.chargeback, c, t, none⟩).accounts c =
        some (((s.accounts c).getD initialAccount).chargeback dt.tx amt) ∧
      ∀ k, k ≠ c →
        (step s ⟨TransactionType.chargeback, c, t, none⟩).accounts k = s.accounts k) := by
  have hd : referenced s t = some dt := by
    rcases hk with hk | hk <;> simp [referenced, hdt, hk]
  refine ⟨⟨?_, ?_⟩, ⟨?_, ?_⟩, ⟨?_, ?_⟩⟩
  · simp [step, putAccount, hd, hamt, unwrapAmount]
  · intro k hkc
    simp [step, putAccount, hd, hkc]
  · simp [step, putAccount, hd, hamt, unwrapAmount]
  · intro k hkc
    simp [step, putAccount, hd, hkc]
  · simp [step, putAccount, hd, hamt, unwrapAmount]
  · intro k hkc
    simp [step, putAccount, hd, hkc]

/-- Witness for C10: client 2 disputes client 1's deposit of 20 (tx 0) and
client 2's account takes the 20 into held. -/
theorem cross_client_dispute_witness :
    (step (runEngine [⟨TransactionType.deposit, 1, 0, some 20⟩])
        ⟨TransactionType.dispute, 2, 0, none⟩).accounts 2 =
      some { disputed_transactions := [0], frozen := false, held := 20, available := 0 } := by
  have h := (lifecycle_uses_record_client_and_referenced_amount
      (runEngine [⟨TransactionType.deposit, 1, 0, some 20⟩]) 2 0
      ⟨TransactionType.deposit, 1, 0, some 20⟩ 20
      (by simp [runEngine, step, putAccount, initialState])
      (Or.inl rfl) rfl).1.1
  rw [h]
  norm_num [runEngine, step, putAccount, initialState, initialAccount, Account.dispute,
    Account.deposit, unwrapAmount]

end Txns
